import Mathlib

/-!
The package `db` of mongo-tools-common.

A shallow embedding of `src/db/db.go` (the error classifier `IsConnectionError`
and the `SessionProvider` life cycle) and of the buffered bulk inserter that
`src/db/buffered_bulk_test.go` exercises, followed by the theorems about them.
-/

namespace Db

/-! ## Strings and errors -/

/-- A Go string, as the sequence of its code points. All the signatures of
`db.go` are ASCII, so that substring and suffix tests on code points agree with
the byte-wise ones of package `strings`. -/
abbrev GoString := List Char

/-- The function `strings.HasPrefix` of Go. -/
def HasPrefix (s pre : GoString) : Bool :=
  decide (pre.length ≤ s.length) && (s.take pre.length == pre)

/-- The function `strings.HasSuffix` of Go:
`len(s) >= len(suffix) && s[len(s)-len(suffix):] == suffix`. -/
def HasSuffix (s suffix : GoString) : Bool :=
  decide (suffix.length ≤ s.length) && (s.drop (s.length - suffix.length) == suffix)

/-- The function `strings.Contains` of Go: `substr` occurs in `s` at some offset. -/
def Contains : GoString → GoString → Bool
  | [], substr => HasPrefix [] substr
  | c :: s, substr => HasPrefix (c :: s) substr || Contains s substr

/-- An upper-case ASCII letter, `'A' <= c && c <= 'Z'`. -/
def isAsciiUpper (c : Char) : Bool :=
  decide (65 ≤ c.toNat) && decide (c.toNat ≤ 90)

/-- The function `unicode.ToLower` of Go on one code point. Below `utf8.RuneSelf` (128) the
standard library adds `'a' - 'A'` to an upper-case letter and leaves every other
code point alone; above it the library consults its Unicode case tables, which
are not part of this repository and enter as the parameter `caseTable`. -/
def toLowerRune (caseTable : Char → Char) (c : Char) : Char :=
  if c.toNat < 128 then
    if isAsciiUpper c then Char.ofNat (c.toNat + 32) else c
  else caseTable c

/-- The function `strings.ToLower` of Go: every code point mapped by `unicode.ToLower`. -/
def ToLower (caseTable : Char → Char) (s : GoString) : GoString :=
  s.map (toLowerRune caseTable)

/-- A non-nil Go `error` value. `io.EOF` is a package variable that the code
compares by identity (`err == io.EOF`), so it is a constructor of its own; every
other error is known by its message only. The nil error is `none` in
`Option GoError`. -/
inductive GoError where
  | ioEOF : GoError
  | other (msg : GoString) : GoError
  deriving DecidableEq, Repr

/-- The function `errors.New` of Go. -/
def errorsNew (msg : String) : GoError := GoError.other msg.toList

/-- The method `Error()` of an error value; `io.EOF` reads "EOF". -/
def GoError.Error : GoError → GoString
  | GoError.ioEOF => "EOF".toList
  | GoError.other msg => msg

/-! ## The constants of `db.go`, lines 54-67 -/

def ErrLostConnection : GoString := "lost connection to server".toList
def ErrNoReachableServers : GoString := "no reachable servers".toList
def ErrNsNotFound : GoString := "ns not found".toList
def ErrReplTimeoutPrefix : GoString := "waiting for replication timed out".toList
def ErrCouldNotContactPrimaryPrefix : GoString :=
  "could not contact primary for replica set".toList
def ErrWriteResultsUnavailable : GoString := "write results unavailable from".toList
def ErrCouldNotFindPrimaryPrefix : GoString :=
  "could not find host matching read preference \x7b mode: \"primary\"".toList
def ErrUnableToTargetPrefix : GoString := "unable to target".toList
def ErrNotMaster : GoString := "not master".toList
def ErrConnectionRefusedSuffix : GoString := "Connection refused".toList

/-! ## `IsConnectionError`, `db.go` lines 249-266 -/

/-- The classifier of `db.go`: `false` on the nil error, otherwise the
disjunction of the nine tests on the lower-cased message, in source order. -/
def IsConnectionError (caseTable : Char → Char) : Option GoError → Bool
  | none => false
  | some err =>
    let lowerCaseError := ToLower caseTable err.Error
    if lowerCaseError == ErrNoReachableServers ||
        decide (err = GoError.ioEOF) ||
        Contains lowerCaseError ErrReplTimeoutPrefix ||
        Contains lowerCaseError ErrCouldNotContactPrimaryPrefix ||
        Contains lowerCaseError ErrWriteResultsUnavailable ||
        Contains lowerCaseError ErrCouldNotFindPrimaryPrefix ||
        Contains lowerCaseError ErrUnableToTargetPrefix ||
        lowerCaseError == ErrNotMaster ||
        HasSuffix lowerCaseError ErrConnectionRefusedSuffix then
      true
    else
      false

/-! ## The session provider, `db.go` lines 69-172 -/

/-- A call made on the underlying `*mongo.Client`. -/
inductive ClientCall where
  | Connect : ClientCall
  | Disconnect : ClientCall
  deriving DecidableEq, Repr

/-- A non-nil `*mongo.Client`, known by its identity. -/
structure Client where
  id : Nat
  deriving DecidableEq, Repr

/-- The `Auth` options that `db.go` reads. -/
structure Auth where
  Username : GoString
  Password : GoString
  Mechanism : GoString
  deriving DecidableEq, Repr

/-- The `SSL` options that decide the control flow of `configureClient`. -/
structure SSL where
  UseSSL : Bool
  SSLFipsMode : Bool
  SSLCRLFile : GoString
  deriving DecidableEq, Repr

/-- The part of `options.ToolOptions` that `db.go` branches on or writes to;
`Auth` and `SSL` are pointers and may be nil. -/
structure ToolOptions where
  Auth : Option Auth
  SSL : Option SSL
  deriving DecidableEq, Repr

/-- The packages that `db.go` calls and that are not part of it: `options`,
`password` and the driver `mongo`. `Connect` and `Disconnect` give the error
that the call returns on the client, as a function of the calls made on that
client before. -/
structure Env where
  ShouldAskForPassword : ToolOptions → Bool
  Prompt : GoString
  NewClientWithOptions : ToolOptions → Except GoError Client
  Connect : List ClientCall → Option GoError
  Disconnect : List ClientCall → Option GoError

/-- The struct `SessionProvider` without its mutex: every method below runs
from `Lock` to `Unlock` and is one atomic step. -/
structure SessionProvider where
  client : Option Client
  connectCalled : Bool
  deriving DecidableEq, Repr

/-- A provider together with the calls made so far on its client, oldest first. -/
structure State where
  sp : SessionProvider
  calls : List ClientCall
  deriving DecidableEq, Repr

/-- `SessionProvider.GetSession`, lines 100-114. Line 109 calls `Connect` as a
statement: what the call returns is bound to nothing. -/
def SessionProvider.GetSession (env : Env) (st : State) :
    State × Option Client × Option GoError :=
  match st.sp.client with
  | none => (st, none, some (errorsNew "SessionProvider already closed"))
  | some c =>
    if !st.sp.connectCalled then
      let _ := env.Connect st.calls
      ({ sp := { st.sp with connectCalled := true },
         calls := st.calls ++ [ClientCall.Connect] }, some c, none)
    else
      (st, some c, none)

/-- `SessionProvider.Close`, lines 117-124; what `Disconnect` returns is bound
to nothing either. -/
def SessionProvider.Close (env : Env) (st : State) : State :=
  match st.sp.client with
  | some _ =>
    let _ := env.Disconnect st.calls
    { sp := { st.sp with client := none }, calls := st.calls ++ [ClientCall.Disconnect] }
  | none => st

/-- `configureClient`, lines 174-244. The client options it assembles are a
function of `opts` and go to the constructor of the driver unread; the two early
returns are the only branches that end the function. -/
def configureClient (env : Env) (opts : ToolOptions) : Except GoError Client :=
  match opts.SSL with
  | some ssl =>
    if ssl.SSLFipsMode then
      Except.error (errorsNew "FIPS mode not supported")
    else if ssl.SSLCRLFile ≠ [] then
      Except.error (errorsNew "CRL files are not supported on this platform")
    else
      env.NewClientWithOptions opts
  | none => env.NewClientWithOptions opts

/-- `NewSessionProvider`, lines 155-172: prompt for a missing password,
configure the client, call `Connect` on it and hand the error back if there is
one, otherwise build `&SessionProvider{client: client}`, whose `connectCalled`
is the zero value `false`. -/
def NewSessionProvider (env : Env) (opts : ToolOptions) : Except GoError State :=
  let opts1 : ToolOptions :=
    if env.ShouldAskForPassword opts then
      { opts with Auth := opts.Auth.map (fun a => { a with Password := env.Prompt }) }
    else opts
  match configureClient env opts1 with
  | Except.error err =>
    Except.error (GoError.other ("error configuring the connector: ".toList ++ err.Error))
  | Except.ok client =>
    match env.Connect [] with
    | some err => Except.error err
    | none =>
      Except.ok { sp := { client := some client, connectCalled := false },
                  calls := [ClientCall.Connect] }

/-- The two methods of a provider that change or read its state. -/
inductive ProviderOp where
  | GetSession : ProviderOp
  | Close : ProviderOp
  deriving DecidableEq, Repr

/-- The state after one method call. -/
def ProviderOp.apply (env : Env) (st : State) : ProviderOp → State
  | ProviderOp.GetSession => (SessionProvider.GetSession env st).1
  | ProviderOp.Close => SessionProvider.Close env st

/-- The state after a sequence of method calls. -/
def runOps (env : Env) (st : State) (ops : List ProviderOp) : State :=
  ops.foldl (ProviderOp.apply env) st

/-- The state after `n` calls of `GetSession` in a row. -/
def getSessions (env : Env) (n : Nat) (st : State) : State :=
  Nat.iterate (fun s => (SessionProvider.GetSession env s).1) n st

/-- The state after `n` calls of `Close` in a row. -/
def closes (env : Env) (n : Nat) (st : State) : State :=
  Nat.iterate (SessionProvider.Close env) n st

/-- How often `Connect` has been called on the client. -/
def connectCount (st : State) : Nat := st.calls.count ClientCall.Connect

/-- How often `Disconnect` has been called on the client. -/
def disconnectCount (st : State) : Nat := st.calls.count ClientCall.Disconnect

/-- A driver in which every call succeeds. -/
def reliableEnv : Env where
  ShouldAskForPassword := fun _ => false
  Prompt := []
  NewClientWithOptions := fun _ => Except.ok { id := 1 }
  Connect := fun _ => none
  Disconnect := fun _ => none

/-- A driver that, like the Go driver, refuses a second `Connect` on a client
that is connected already. -/
def connectOnceEnv : Env where
  ShouldAskForPassword := fun _ => false
  Prompt := []
  NewClientWithOptions := fun _ => Except.ok { id := 1 }
  Connect := fun calls =>
    if ClientCall.Connect ∈ calls then
      some (errorsNew "topology is connected or connecting")
    else none
  Disconnect := fun _ => none

/-- Options as the test builds them: `Auth` and `SSL` set, nothing unsupported. -/
def testOptions : ToolOptions where
  Auth := some { Username := [], Password := [], Mechanism := [] }
  SSL := some { UseSSL := false, SSLFipsMode := false, SSLCRLFile := [] }

/-- The provider that `NewSessionProvider` returns for the client that these
two drivers construct, with the one `Connect` of the construction in the log. -/
def builtState : State where
  sp := { client := some { id := 1 }, connectCalled := false }
  calls := [ClientCall.Connect]

/-! ## The buffered bulk inserter -/

/-- Modelled from the spec: the collaborators of the inserter, section 6 of the
specification. `size` is the serialized byte size of a document and `BulkWrite`
is the error (or nil) of one bulk-write request, given the requests executed
before, the batch and the `ordered` flag. The file `buffered_bulk.go` that
declares the inserter is missing from the sources. -/
structure Target (Doc : Type) where
  size : Doc → Nat
  BulkWrite : List (List Doc) → List Doc → Bool → Option GoError

/-- Modelled from the spec: the struct `BufferedBulkInserter` of section 3,
missing from the sources. `target` stands for the remote collection as the
list of bulk-write requests executed on it, oldest first. -/
structure BufferedBulkInserter (Doc : Type) where
  target : List (List Doc)
  ordered : Bool
  docLimit : Nat
  byteLimit : Nat
  pending : List Doc
  docCount : Nat
  byteCount : Nat

/-- Modelled from the spec: `Construct(target, docLimit, ordered)` of section
4.1, the constructor `NewBufferedBulkInserter` missing from the sources. The
specification fixes the byte limit "internally" without a value, so it is a
parameter here. -/
def NewBufferedBulkInserter {Doc : Type} (byteLimit : Nat) (docLimit : Nat) (ordered : Bool) :
    BufferedBulkInserter Doc where
  target := []
  ordered := ordered
  docLimit := docLimit
  byteLimit := byteLimit
  pending := []
  docCount := 0
  byteCount := 0

/-- Modelled from the spec: `Flush` of section 4.1, missing from the sources. A
no-op returning nil on an empty `pending`; otherwise one bulk-write request
with all pending documents, after which the buffer is cleared whatever the
request returned, and the error of the request is returned unchanged. -/
def BufferedBulkInserter.Flush {Doc : Type} (t : Target Doc) (bb : BufferedBulkInserter Doc) :
    BufferedBulkInserter Doc × Option GoError :=
  if bb.pending.isEmpty then
    (bb, none)
  else
    ({ bb with target := bb.target ++ [bb.pending], pending := [], docCount := 0,
               byteCount := 0 },
     t.BulkWrite bb.target bb.pending bb.ordered)

/-- Modelled from the spec: the buffer after the append step of `Insert`,
section 4.1. -/
def BufferedBulkInserter.append {Doc : Type} (t : Target Doc) (bb : BufferedBulkInserter Doc)
    (doc : Doc) : BufferedBulkInserter Doc :=
  { bb with pending := bb.pending ++ [doc], docCount := bb.docCount + 1,
            byteCount := bb.byteCount + t.size doc }

/-- Modelled from the spec: `Insert` of section 4.1, missing from the sources.
Appends the document; then, if `docCount ≥ docLimit` or `byteCount ≥ byteLimit`,
flushes before returning and returns the error of the flush. -/
def BufferedBulkInserter.Insert {Doc : Type} (t : Target Doc) (bb : BufferedBulkInserter Doc)
    (doc : Doc) : BufferedBulkInserter Doc × Option GoError :=
  let bb1 := bb.append t doc
  if bb1.docLimit ≤ bb1.docCount ∨ bb1.byteLimit ≤ bb1.byteCount then
    bb1.Flush t
  else
    (bb1, none)

/-- The inserter after `Insert` has been called on each document in turn. -/
def insertAll {Doc : Type} (t : Target Doc) (bb : BufferedBulkInserter Doc) (docs : List Doc) :
    BufferedBulkInserter Doc :=
  docs.foldl (fun b doc => (b.Insert t doc).1) bb

/-- The errors that the calls of `Insert` on each document in turn return. -/
def insertErrors {Doc : Type} (t : Target Doc) :
    BufferedBulkInserter Doc → List Doc → List (Option GoError)
  | _, [] => []
  | bb, doc :: docs => (bb.Insert t doc).2 :: insertErrors t (bb.Insert t doc).1 docs

/-- No flush is triggered by the byte limit alone while the documents are
inserted: whenever the byte count has reached the byte limit after an append,
the document count has reached the document limit too. -/
def noByteLimitFlush {Doc : Type} (t : Target Doc) :
    BufferedBulkInserter Doc → List Doc → Bool
  | _, [] => true
  | bb, doc :: docs =>
    let bb1 := bb.append t doc
    (decide (bb1.byteCount < bb1.byteLimit) || decide (bb1.docLimit ≤ bb1.docCount)) &&
      noByteLimitFlush t (bb.Insert t doc).1 docs

/-- A call on an inserter. -/
inductive BulkOp (Doc : Type) where
  | Insert (doc : Doc) : BulkOp Doc
  | Flush : BulkOp Doc

/-- The inserter after one call. -/
def BulkOp.apply {Doc : Type} (t : Target Doc) (bb : BufferedBulkInserter Doc) :
    BulkOp Doc → BufferedBulkInserter Doc
  | BulkOp.Insert doc => (bb.Insert t doc).1
  | BulkOp.Flush => (bb.Flush t).1

/-- The inserter after a sequence of calls. -/
def runBulk {Doc : Type} (t : Target Doc) (bb : BufferedBulkInserter Doc)
    (ops : List (BulkOp Doc)) : BufferedBulkInserter Doc :=
  ops.foldl (BulkOp.apply t) bb

/-- The invariants of section 3: `docCount == len(pending)` and `byteCount` is
the sum of the sizes of the pending documents. -/
def BufferedBulkInserter.WellFormed {Doc : Type} (t : Target Doc)
    (bb : BufferedBulkInserter Doc) : Prop :=
  bb.docCount = bb.pending.length ∧ bb.byteCount = (bb.pending.map t.size).sum

instance {Doc : Type} (t : Target Doc) (bb : BufferedBulkInserter Doc) :
    Decidable (bb.WellFormed t) := by
  unfold BufferedBulkInserter.WellFormed
  exact inferInstance

/-- The size of a BSON document, for documents given as their serialized bytes;
the empty document `bson.D{}` is the five bytes `05 00 00 00 00`. -/
def bytesTarget : Target (List Nat) where
  size := fun doc => doc.length
  BulkWrite := fun _ _ _ => none

/-- The empty BSON document. -/
def emptyDoc : List Nat := [5, 0, 0, 0, 0]

/-- `MaxBSONSize`, line 43. -/
def MaxBSONSize : Nat := 16 * 1024 * 1024

/-- A collection on which every bulk write succeeds, for documents known by
their key `_id`. -/
def keyedTarget : Target Nat where
  size := fun _ => 14
  BulkWrite := fun _ _ _ => none

/-! ## Facts about the string helpers -/

theorem toNat_ofNat_small (n : Nat) (h : n < 55296) : (Char.ofNat n).toNat = n := by
  have hv : n.isValidChar := Or.inl h
  simp only [Char.ofNat, dif_pos hv, Char.ofNatAux, Char.toNat, UInt32.toNat,
    BitVec.toNat_ofNatLt]

/-- Lower-casing never yields an upper-case ASCII letter, provided the Unicode
case table yields none on the code points it is consulted for. -/
theorem toLowerRune_not_upper (caseTable : Char → Char)
    (hTable : ∀ c : Char, 128 ≤ c.toNat → isAsciiUpper (caseTable c) = false) (c : Char) :
    isAsciiUpper (toLowerRune caseTable c) = false := by
  unfold toLowerRune
  by_cases h : c.toNat < 128
  · rw [if_pos h]
    by_cases hu : isAsciiUpper c = true
    · rw [if_pos hu]
      have hn : (Char.ofNat (c.toNat + 32)).toNat = c.toNat + 32 :=
        toNat_ofNat_small _ (by omega)
      simp only [isAsciiUpper, Bool.and_eq_true, decide_eq_true_eq] at hu
      simp only [isAsciiUpper, hn, Bool.and_eq_false_iff, decide_eq_false_iff_not]
      omega
    · rw [if_neg hu]
      simpa using hu
  · rw [if_neg h]
    exact hTable c (by omega)

/-- A string that `HasSuffix` accepts contains every character of the suffix. -/
theorem mem_of_HasSuffix (s suffix : GoString) (h : HasSuffix s suffix = true) (c : Char)
    (hc : c ∈ suffix) : c ∈ s := by
  simp only [HasSuffix, Bool.and_eq_true, decide_eq_true_eq, beq_iff_eq] at h
  have : c ∈ s.drop (s.length - suffix.length) := by rw [h.2]; exact hc
  exact List.mem_of_mem_drop this

/-- The ninth test of `IsConnectionError` never fires: the lower-cased message
holds no `C`, the first character of `ErrConnectionRefusedSuffix`. -/
theorem HasSuffix_ToLower_ErrConnectionRefusedSuffix (caseTable : Char → Char)
    (hTable : ∀ c : Char, 128 ≤ c.toNat → isAsciiUpper (caseTable c) = false) (s : GoString) :
    HasSuffix (ToLower caseTable s) ErrConnectionRefusedSuffix = false := by
  by_contra hne
  have hs : HasSuffix (ToLower caseTable s) ErrConnectionRefusedSuffix = true := by
    simpa using hne
  have hmem : 'C' ∈ ToLower caseTable s :=
    mem_of_HasSuffix _ _ hs 'C' (by decide)
  simp only [ToLower, List.mem_map] at hmem
  obtain ⟨c, _, hc⟩ := hmem
  have := toLowerRune_not_upper caseTable hTable c
  rw [hc] at this
  exact absurd this (by decide)

/-- `HasPrefix` decides whether `pre` is an initial segment of `s`. -/
theorem HasPrefix_iff (s pre : GoString) : HasPrefix s pre = true ↔ pre <+: s := by
  simp only [HasPrefix, Bool.and_eq_true, decide_eq_true_eq, beq_iff_eq]
  constructor
  · rintro ⟨_, h⟩
    exact List.prefix_iff_eq_take.2 h.symm
  · intro h
    exact ⟨h.length_le, (List.prefix_iff_eq_take.1 h).symm⟩

/-- `Contains` decides whether `substr` occurs in `s` as a block of consecutive
characters: `s = before ++ substr ++ after` for some `before` and `after`. -/
theorem Contains_iff (s substr : GoString) : Contains s substr = true ↔ substr <:+: s := by
  induction s with
  | nil =>
    rw [Contains, HasPrefix_iff, List.prefix_nil, List.infix_nil]
  | cons c s ih =>
    rw [Contains, Bool.or_eq_true, HasPrefix_iff, ih, List.infix_cons_iff]

/-- `HasSuffix` decides whether `suffix` is a final segment of `s`. -/
theorem HasSuffix_iff (s suffix : GoString) : HasSuffix s suffix = true ↔ suffix <:+ s := by
  simp only [HasSuffix, Bool.and_eq_true, decide_eq_true_eq, beq_iff_eq]
  constructor
  · rintro ⟨_, h⟩
    have ht := List.take_append_drop (s.length - suffix.length) s
    rw [h] at ht
    exact ⟨s.take (s.length - suffix.length), ht⟩
  · rintro ⟨t, rfl⟩
    refine ⟨by simp, ?_⟩
    simp

/-- On a code point below 128 the lower-casing of the model is `Char.toLower`,
the ASCII lower-casing of the Lean library, whatever the Unicode case table. -/
theorem toLowerRune_ascii (caseTable : Char → Char) (c : Char) (h : c.toNat < 128) :
    toLowerRune caseTable c = c.toLower := by
  unfold toLowerRune Char.toLower isAsciiUpper
  rw [if_pos h]
  by_cases hu : 65 ≤ c.toNat ∧ c.toNat ≤ 90
  · have hb : (decide (65 ≤ c.toNat) && decide (c.toNat ≤ 90)) = true := by
      simp [hu.1, hu.2]
    have hp : c.toNat ≥ 65 ∧ c.toNat ≤ 90 := hu
    simp only [hb, if_true, if_pos hp]
  · have hb : ¬ ((decide (65 ≤ c.toNat) && decide (c.toNat ≤ 90)) = true) := by
      simpa using hu
    have hp : ¬ (c.toNat ≥ 65 ∧ c.toNat ≤ 90) := hu
    simp only [if_neg hb, if_neg hp]

/-- On an ASCII message `ToLower` is the ASCII lower-casing of every character. -/
theorem ToLower_ascii (caseTable : Char → Char) (s : GoString)
    (h : ∀ c ∈ s, c.toNat < 128) : ToLower caseTable s = s.map Char.toLower := by
  unfold ToLower
  exact List.map_congr_left (fun c hc => toLowerRune_ascii caseTable c (h c hc))

/-! ## `IsConnectionError` -/

/-- C1: an error whose message ends in "connection refused" is not classified
as a connection error by the code, whatever the case of its letters: the message
of a refused dial and the message "Connection refused" both give `false`. -/
theorem IsConnectionError_connection_refused (caseTable : Char → Char) :
    IsConnectionError caseTable
        (some (errorsNew "dial tcp 127.0.0.1:27017: connect: connection refused")) = false ∧
      IsConnectionError caseTable (some (errorsNew "Connection refused")) = false :=
  ⟨rfl, rfl⟩

/-- C2: `IsConnectionError` is true on every non-nil error that is `io.EOF`,
or whose lower-cased message equals "no reachable servers" or "not master", or
in whose lower-cased message one of the five substring signatures occurs as a
block of consecutive characters. -/
theorem IsConnectionError_of_signature (caseTable : Char → Char) (err : GoError)
    (h : err = GoError.ioEOF ∨
      ToLower caseTable err.Error = "no reachable servers".toList ∨
      ToLower caseTable err.Error = "not master".toList ∨
      "waiting for replication timed out".toList <:+: ToLower caseTable err.Error ∨
      "could not contact primary for replica set".toList <:+: ToLower caseTable err.Error ∨
      "write results unavailable from".toList <:+: ToLower caseTable err.Error ∨
      "could not find host matching read preference \x7b mode: \"primary\"".toList <:+:
        ToLower caseTable err.Error ∨
      "unable to target".toList <:+: ToLower caseTable err.Error) :
    IsConnectionError caseTable (some err) = true := by
  simp only [← Contains_iff] at h
  simp only [IsConnectionError, ErrNoReachableServers, ErrReplTimeoutPrefix,
    ErrCouldNotContactPrimaryPrefix, ErrWriteResultsUnavailable, ErrCouldNotFindPrimaryPrefix,
    ErrUnableToTargetPrefix, ErrNotMaster]
  rw [if_pos]
  simp only [Bool.or_eq_true, beq_iff_eq, decide_eq_true_eq]
  tauto

/-- Witness of C2: `io.EOF`, the two exact signatures in mixed case, and each
of the five substring signatures in mixed case inside a longer message. -/
theorem IsConnectionError_of_signature_witness :
    IsConnectionError id (some GoError.ioEOF) = true ∧
      IsConnectionError id (some (errorsNew "No Reachable Servers")) = true ∧
      IsConnectionError id (some (errorsNew "Not Master")) = true ∧
      (ToLower id (errorsNew "rs0: Waiting For Replication Timed Out at shard1").Error =
          "rs0: waiting for replication timed out at shard1".toList ∧
        IsConnectionError id
          (some (errorsNew "rs0: Waiting For Replication Timed Out at shard1")) = true) ∧
      IsConnectionError id
        (some (errorsNew "Could Not Contact Primary For Replica Set rs0")) = true ∧
      IsConnectionError id
        (some (errorsNew "Write Results Unavailable From host1:27017")) = true ∧
      IsConnectionError id
        (some (errorsNew
          "Could Not Find Host Matching Read Preference \x7b Mode: \"Primary\" \x7d")) = true ∧
      IsConnectionError id (some (errorsNew "mongos: Unable To Target write op")) = true :=
  ⟨IsConnectionError_of_signature id GoError.ioEOF (Or.inl rfl),
   IsConnectionError_of_signature id (errorsNew "No Reachable Servers")
     (Or.inr (Or.inl (by decide))),
   IsConnectionError_of_signature id (errorsNew "Not Master")
     (Or.inr (Or.inr (Or.inl (by decide)))),
   ⟨by decide,
    IsConnectionError_of_signature id
      (errorsNew "rs0: Waiting For Replication Timed Out at shard1")
      (Or.inr (Or.inr (Or.inr (Or.inl
        ⟨"rs0: ".toList, " at shard1".toList, by decide⟩))))⟩,
   IsConnectionError_of_signature id
     (errorsNew "Could Not Contact Primary For Replica Set rs0")
     (Or.inr (Or.inr (Or.inr (Or.inr (Or.inl
       ⟨[], " rs0".toList, by decide⟩))))),
   IsConnectionError_of_signature id
     (errorsNew "Write Results Unavailable From host1:27017")
     (Or.inr (Or.inr (Or.inr (Or.inr (Or.inr (Or.inl
       ⟨[], " host1:27017".toList, by decide⟩)))))),
   IsConnectionError_of_signature id
     (errorsNew "Could Not Find Host Matching Read Preference \x7b Mode: \"Primary\" \x7d")
     (Or.inr (Or.inr (Or.inr (Or.inr (Or.inr (Or.inr (Or.inl
       ⟨[], " \x7d".toList, by decide⟩))))))),
   IsConnectionError_of_signature id (errorsNew "mongos: Unable To Target write op")
     (Or.inr (Or.inr (Or.inr (Or.inr (Or.inr (Or.inr (Or.inr
       ⟨"mongos: ".toList, " write op".toList, by decide⟩)))))))⟩

/-- C3: `IsConnectionError` is false on the nil error, and false on every
non-nil error that is not `io.EOF` and whose lower-cased message matches none of
the signatures of the table. The Unicode case table is assumed to yield no
upper-case ASCII letter, as the one of the Go library does. -/
theorem IsConnectionError_only_signatures (caseTable : Char → Char)
    (hTable : ∀ c : Char, 128 ≤ c.toNat → isAsciiUpper (caseTable c) = false) :
    IsConnectionError caseTable none = false ∧
      ∀ err : GoError, err ≠ GoError.ioEOF →
        ToLower caseTable err.Error ≠ "no reachable servers".toList →
        ToLower caseTable err.Error ≠ "not master".toList →
        Contains (ToLower caseTable err.Error)
          "waiting for replication timed out".toList = false →
        Contains (ToLower caseTable err.Error)
          "could not contact primary for replica set".toList = false →
        Contains (ToLower caseTable err.Error) "write results unavailable from".toList = false →
        Contains (ToLower caseTable err.Error)
          "could not find host matching read preference \x7b mode: \"primary\"".toList = false →
        Contains (ToLower caseTable err.Error) "unable to target".toList = false →
        HasSuffix (ToLower caseTable err.Error) "connection refused".toList = false →
        IsConnectionError caseTable (some err) = false := by
  refine ⟨rfl, ?_⟩
  intro err hEOF h1 h2 h3 h4 h5 h6 h7 _
  have h9 := HasSuffix_ToLower_ErrConnectionRefusedSuffix caseTable hTable err.Error
  simp only [IsConnectionError, ErrNoReachableServers, ErrReplTimeoutPrefix,
    ErrCouldNotContactPrimaryPrefix, ErrWriteResultsUnavailable, ErrCouldNotFindPrimaryPrefix,
    ErrUnableToTargetPrefix, ErrNotMaster]
  rw [if_neg]
  simp only [h3, h4, h5, h6, h7, h9, Bool.or_eq_true, beq_iff_eq, decide_eq_true_eq]
  tauto

/-- The identity is a case table that yields no upper-case ASCII letter above 127. -/
theorem id_table_not_upper (c : Char) (h : 128 ≤ c.toNat) : isAsciiUpper (id c) = false := by
  simp only [isAsciiUpper, id, Bool.and_eq_false_iff, decide_eq_false_iff_not]
  omega

/-- Witness of C3: a duplicate-key write error is not a connection error. -/
theorem IsConnectionError_only_signatures_witness :
    (∀ c : Char, 128 ≤ c.toNat → isAsciiUpper (id c) = false) ∧
      IsConnectionError id none = false ∧
      IsConnectionError id
        (some (errorsNew "E11000 duplicate key error index: _id_ dup key: \x7b : 1 \x7d")) =
        false :=
  ⟨id_table_not_upper,
   (IsConnectionError_only_signatures id id_table_not_upper).1,
   (IsConnectionError_only_signatures id id_table_not_upper).2
     (errorsNew "E11000 duplicate key error index: _id_ dup key: \x7b : 1 \x7d")
     (by decide) (by decide) (by decide) (by decide) (by decide) (by decide) (by decide)
     (by decide) (by decide)⟩

/-! ## The session provider -/

/-- A provider without a client is left as it is by every method. -/
theorem apply_of_client_none (env : Env) (st : State) (h : st.sp.client = none)
    (op : ProviderOp) : ProviderOp.apply env st op = st := by
  cases op
  · simp only [ProviderOp.apply, SessionProvider.GetSession, h]
  · simp only [ProviderOp.apply, SessionProvider.Close, h]

theorem runOps_of_client_none (env : Env) (ops : List ProviderOp) (st : State)
    (h : st.sp.client = none) : runOps env st ops = st := by
  induction ops with
  | nil => rfl
  | cons op ops ih =>
    simp only [runOps, List.foldl_cons, apply_of_client_none env st h op]
    exact ih

theorem Close_client (env : Env) (st : State) : (SessionProvider.Close env st).sp.client = none := by
  unfold SessionProvider.Close
  cases h : st.sp.client with
  | none => simpa using h
  | some c => rfl

theorem Close_connectCount (env : Env) (st : State) :
    connectCount (SessionProvider.Close env st) = connectCount st := by
  unfold SessionProvider.Close connectCount
  cases st.sp.client with
  | none => rfl
  | some c => simp

theorem Close_calls (env : Env) (st : State) :
    (SessionProvider.Close env st).calls =
      st.calls ++ (if st.sp.client.isSome then [ClientCall.Disconnect] else []) := by
  unfold SessionProvider.Close
  cases st.sp.client with
  | none => simp
  | some c => simp

theorem Close_Close (env : Env) (st : State) :
    SessionProvider.Close env (SessionProvider.Close env st) = SessionProvider.Close env st := by
  have h := Close_client env st
  generalize SessionProvider.Close env st = s at h
  simp only [SessionProvider.Close, h]

theorem closes_succ (env : Env) (n : Nat) (st : State) :
    closes env (n + 1) st = SessionProvider.Close env st := by
  induction n with
  | zero => rfl
  | succ k ih =>
    unfold closes at ih ⊢
    rw [Function.iterate_succ_apply', ih, Close_Close]

theorem GetSession_connectCalled (env : Env) (st : State) (c : Client)
    (h : st.sp.client = some c) :
    (SessionProvider.GetSession env st).1.sp.client = some c ∧
      (SessionProvider.GetSession env st).1.sp.connectCalled = true := by
  unfold SessionProvider.GetSession
  rw [h]
  cases hc : st.sp.connectCalled with
  | false => simp [h]
  | true => simp [h, hc]

theorem GetSession_of_connectCalled (env : Env) (st : State) (c : Client)
    (h : st.sp.client = some c) (hc : st.sp.connectCalled = true) :
    (SessionProvider.GetSession env st).1 = st := by
  unfold SessionProvider.GetSession
  rw [h]
  simp [hc]

theorem getSessions_succ (env : Env) (n : Nat) (st : State) (c : Client)
    (h : st.sp.client = some c) :
    getSessions env (n + 1) st = (SessionProvider.GetSession env st).1 := by
  induction n with
  | zero => rfl
  | succ k ih =>
    unfold getSessions at ih ⊢
    rw [Function.iterate_succ_apply', ih]
    have hg := GetSession_connectCalled env st c h
    exact GetSession_of_connectCalled env _ c hg.1 hg.2

theorem GetSession_connectCount_le (env : Env) (st : State) :
    connectCount (SessionProvider.GetSession env st).1 ≤ connectCount st + 1 := by
  unfold SessionProvider.GetSession connectCount
  cases st.sp.client with
  | none => simp
  | some c =>
    cases st.sp.connectCalled with
    | false => simp
    | true => simp

theorem NewSessionProvider_ok (env : Env) (opts : ToolOptions) (st : State)
    (h : NewSessionProvider env opts = Except.ok st) :
    (∃ c, st.sp.client = some c) ∧ st.sp.connectCalled = false ∧
      st.calls = [ClientCall.Connect] := by
  unfold NewSessionProvider at h
  simp only at h
  split at h
  · exact absurd h (by simp)
  · rename_i client _
    split at h
    · exact absurd h (by simp)
    · have hst : st = { sp := { client := some client, connectCalled := false },
                        calls := [ClientCall.Connect] } := by
        injection h with h'
        exact h'.symm
      subst hst
      exact ⟨⟨client, rfl⟩, rfl, rfl⟩

/-- C4: after `Close`, whatever calls of `GetSession` and `Close` follow, a
call of `GetSession` returns the nil client and the error "SessionProvider
already closed", leaves the provider and the log of driver calls as they were,
and no `Connect` has been made since before the `Close`. -/
theorem GetSession_after_Close (env : Env) (st : State) (ops : List ProviderOp) :
    SessionProvider.GetSession env (runOps env (SessionProvider.Close env st) ops) =
        (runOps env (SessionProvider.Close env st) ops, none,
          some (errorsNew "SessionProvider already closed")) ∧
      connectCount (runOps env (SessionProvider.Close env st) ops) = connectCount st := by
  rw [runOps_of_client_none env ops _ (Close_client env st)]
  refine ⟨?_, Close_connectCount env st⟩
  simp only [SessionProvider.GetSession, Close_client env st]

/-- C5: with a driver that refuses a second `Connect`, construction succeeds,
the `Connect` that the first `GetSession` makes returns an error, and
`GetSession` returns the client with a nil error all the same. -/
theorem GetSession_drops_Connect_error :
    NewSessionProvider connectOnceEnv testOptions = Except.ok builtState ∧
      connectOnceEnv.Connect builtState.calls =
        some (errorsNew "topology is connected or connecting") ∧
      SessionProvider.GetSession connectOnceEnv builtState =
        ({ sp := { client := some { id := 1 }, connectCalled := true },
           calls := [ClientCall.Connect, ClientCall.Connect] }, some { id := 1 }, none) := by
  refine ⟨rfl, ?_, rfl⟩
  decide

/-- C6, as stated, fails: construction has called `Connect` once already, and
after construction and one `GetSession` it has been called twice, not once. -/
theorem NewSessionProvider_connects_twice :
    NewSessionProvider reliableEnv testOptions = Except.ok builtState ∧
      connectCount builtState = 1 ∧
      connectCount (getSessions reliableEnv 1 builtState) = 2 ∧
      connectCount (getSessions reliableEnv 1 builtState) ≠ 1 :=
  ⟨rfl, by decide, by decide, by decide⟩

/-- C6, amended: a successful `NewSessionProvider` has called `Connect` exactly
once itself; of any `n ≥ 1` calls of `GetSession` that follow, with no `Close`,
the calls after the first change nothing and make no driver call, and all `n`
together make at most one `Connect`. -/
theorem GetSession_connects_at_most_once (env : Env) (opts : ToolOptions) (st : State)
    (h : NewSessionProvider env opts = Except.ok st) (n : Nat) (hn : 1 ≤ n) :
    st.calls = [ClientCall.Connect] ∧ connectCount st = 1 ∧
      getSessions env n st = getSessions env 1 st ∧
      connectCount (getSessions env n st) ≤ connectCount st + 1 := by
  obtain ⟨⟨c, hc⟩, _, hcalls⟩ := NewSessionProvider_ok env opts st h
  obtain ⟨k, rfl⟩ : ∃ k, n = k + 1 := ⟨n - 1, by omega⟩
  refine ⟨hcalls, by simp [connectCount, hcalls], ?_, ?_⟩
  · rw [getSessions_succ env k st c hc, getSessions_succ env 0 st c hc]
  · rw [getSessions_succ env k st c hc]
    exact GetSession_connectCount_le env st

/-- Witness of C6, amended: three calls of `GetSession` after construction. -/
theorem GetSession_connects_at_most_once_witness :
    NewSessionProvider reliableEnv testOptions = Except.ok builtState ∧ 1 ≤ 3 ∧
      builtState.calls = [ClientCall.Connect] ∧ connectCount builtState = 1 ∧
      getSessions reliableEnv 3 builtState = getSessions reliableEnv 1 builtState ∧
      connectCount (getSessions reliableEnv 3 builtState) ≤ connectCount builtState + 1 :=
  ⟨rfl, by decide,
   GetSession_connects_at_most_once reliableEnv testOptions builtState rfl 3 (by decide)⟩

/-- C10: for `n + 1` calls of `Close` in a row, the driver calls made are one
`Disconnect` if a client was present before the first call and none otherwise,
the client is absent after the first call, the state after all the calls is the
state after the first, and one more `Close` leaves it unchanged. -/
theorem Close_idempotent (env : Env) (st : State) (n : Nat) :
    (closes env (n + 1) st).calls =
        st.calls ++ (if st.sp.client.isSome then [ClientCall.Disconnect] else []) ∧
      disconnectCount (closes env (n + 1) st) =
        disconnectCount st + (if st.sp.client.isSome then 1 else 0) ∧
      (SessionProvider.Close env st).sp.client = none ∧
      closes env (n + 1) st = SessionProvider.Close env st ∧
      SessionProvider.Close env (closes env (n + 1) st) = closes env (n + 1) st := by
  rw [closes_succ]
  refine ⟨Close_calls env st, ?_, Close_client env st, rfl, Close_Close env st⟩
  unfold disconnectCount
  rw [Close_calls]
  cases st.sp.client with
  | none => simp
  | some c => simp

/-! ## The buffered bulk inserter -/

theorem append_pending_ne_nil {Doc : Type} (t : Target Doc) (bb : BufferedBulkInserter Doc)
    (doc : Doc) : (bb.append t doc).pending.isEmpty = false := by
  simp [BufferedBulkInserter.append]

/-- The state after an `Insert` that flushes. -/
theorem Insert_of_flush {Doc : Type} (t : Target Doc) (bb : BufferedBulkInserter Doc) (doc : Doc)
    (h : bb.docLimit ≤ bb.docCount + 1 ∨ bb.byteLimit ≤ bb.byteCount + t.size doc) :
    (bb.Insert t doc).1 =
      { bb with target := bb.target ++ [bb.pending ++ [doc]], pending := [], docCount := 0,
                byteCount := 0 } := by
  have h1 : (bb.append t doc).docLimit ≤ (bb.append t doc).docCount ∨
      (bb.append t doc).byteLimit ≤ (bb.append t doc).byteCount := h
  simp only [BufferedBulkInserter.Insert, if_pos h1, BufferedBulkInserter.Flush,
    append_pending_ne_nil]
  rfl

/-- The state after an `Insert` that does not flush. -/
theorem Insert_of_no_flush {Doc : Type} (t : Target Doc) (bb : BufferedBulkInserter Doc)
    (doc : Doc)
    (h : ¬ (bb.docLimit ≤ bb.docCount + 1 ∨ bb.byteLimit ≤ bb.byteCount + t.size doc)) :
    (bb.Insert t doc).1 = bb.append t doc := by
  have h1 : ¬ ((bb.append t doc).docLimit ≤ (bb.append t doc).docCount ∨
      (bb.append t doc).byteLimit ≤ (bb.append t doc).byteCount) := h
  simp only [BufferedBulkInserter.Insert, if_neg h1]

theorem insertAll_cons {Doc : Type} (t : Target Doc) (bb : BufferedBulkInserter Doc) (doc : Doc)
    (docs : List Doc) : insertAll t bb (doc :: docs) = insertAll t (bb.Insert t doc).1 docs := rfl

/-- Counting flushes from any buffer that holds fewer documents than its limit. -/
theorem insertAll_count {Doc : Type} (t : Target Doc) (docs : List Doc) :
    ∀ bb : BufferedBulkInserter Doc, 1 ≤ bb.docLimit → bb.docCount < bb.docLimit →
      noByteLimitFlush t bb docs = true →
      (insertAll t bb docs).target.length =
          bb.target.length + (bb.docCount + docs.length) / bb.docLimit ∧
        (insertAll t bb docs).docCount = (bb.docCount + docs.length) % bb.docLimit := by
  induction docs with
  | nil =>
    intro bb _ hk _
    simp [insertAll, Nat.div_eq_of_lt hk, Nat.mod_eq_of_lt hk]
  | cons doc docs ih =>
    intro bb hL hk hno
    simp only [noByteLimitFlush, BufferedBulkInserter.append, Bool.and_eq_true, Bool.or_eq_true,
      decide_eq_true_eq] at hno
    obtain ⟨hstep, hrest⟩ := hno
    rw [insertAll_cons]
    by_cases hfull : bb.docLimit ≤ bb.docCount + 1
    · have hI := Insert_of_flush t bb doc (Or.inl hfull)
      have hI' := ih (bb.Insert t doc).1 (by rw [hI]; exact hL) (by rw [hI]; exact hL) hrest
      rw [hI] at hI'
      simp only [List.length_append, List.length_singleton, Nat.zero_add] at hI'
      have hLk : bb.docCount + 1 = bb.docLimit := by omega
      have e : bb.docCount + (docs.length + 1) = docs.length + bb.docLimit := by omega
      rw [hI, List.length_cons, e, Nat.add_div_right _ (by omega : 0 < bb.docLimit),
        Nat.add_mod_right]
      exact ⟨by omega, hI'.2⟩
    · have hnf : ¬ (bb.docLimit ≤ bb.docCount + 1 ∨ bb.byteLimit ≤ bb.byteCount + t.size doc) := by
        rcases hstep with hb | hd
        · omega
        · exact absurd hd hfull
      have hI := Insert_of_no_flush t bb doc hnf
      have hI' := ih (bb.Insert t doc).1 (by rw [hI]; exact hL)
        (by rw [hI]; show bb.docCount + 1 < bb.docLimit; omega) hrest
      rw [hI] at hI'
      simp only [BufferedBulkInserter.append] at hI'
      rw [hI, List.length_cons]
      simp only [BufferedBulkInserter.append]
      have e : bb.docCount + (docs.length + 1) = bb.docCount + 1 + docs.length := by omega
      rw [e]
      exact hI'

/-- What `Flush` sends and leaves behind. -/
theorem Flush_join {Doc : Type} (t : Target Doc) (bb : BufferedBulkInserter Doc) :
    (bb.Flush t).1.target.flatten = bb.target.flatten ++ bb.pending ∧ (bb.Flush t).1.pending = [] := by
  unfold BufferedBulkInserter.Flush
  split
  · rename_i h
    have : bb.pending = [] := by simpa using h
    simp [this]
  · simp

/-- Documents sent and documents pending, after one `Insert`. -/
theorem Insert_join {Doc : Type} (t : Target Doc) (bb : BufferedBulkInserter Doc) (doc : Doc) :
    (bb.Insert t doc).1.target.flatten ++ (bb.Insert t doc).1.pending =
      bb.target.flatten ++ bb.pending ++ [doc] := by
  by_cases h : bb.docLimit ≤ bb.docCount + 1 ∨ bb.byteLimit ≤ bb.byteCount + t.size doc
  · rw [Insert_of_flush t bb doc h]
    simp
  · rw [Insert_of_no_flush t bb doc h]
    simp [BufferedBulkInserter.append]

theorem insertAll_join {Doc : Type} (t : Target Doc) (docs : List Doc) :
    ∀ bb : BufferedBulkInserter Doc,
      (insertAll t bb docs).target.flatten ++ (insertAll t bb docs).pending =
        bb.target.flatten ++ bb.pending ++ docs := by
  induction docs with
  | nil => intro bb; simp [insertAll]
  | cons doc docs ih =>
    intro bb
    rw [insertAll_cons, ih, Insert_join]
    simp

theorem Flush_error {Doc : Type} (t : Target Doc)
    (hOk : ∀ history batch ordered, t.BulkWrite history batch ordered = none)
    (bb : BufferedBulkInserter Doc) : (bb.Flush t).2 = none := by
  unfold BufferedBulkInserter.Flush
  split
  · rfl
  · exact hOk _ _ _

theorem Insert_error {Doc : Type} (t : Target Doc)
    (hOk : ∀ history batch ordered, t.BulkWrite history batch ordered = none)
    (bb : BufferedBulkInserter Doc) (doc : Doc) : (bb.Insert t doc).2 = none := by
  unfold BufferedBulkInserter.Insert
  simp only
  split
  · exact Flush_error t hOk _
  · rfl

theorem insertErrors_none {Doc : Type} (t : Target Doc)
    (hOk : ∀ history batch ordered, t.BulkWrite history batch ordered = none)
    (docs : List Doc) :
    ∀ bb : BufferedBulkInserter Doc, ∀ e ∈ insertErrors t bb docs, e = none := by
  induction docs with
  | nil => intro bb e he; simp [insertErrors] at he
  | cons doc docs ih =>
    intro bb e he
    simp only [insertErrors, List.mem_cons] at he
    rcases he with he | he
    · rw [he]; exact Insert_error t hOk bb doc
    · exact ih _ e he

theorem WellFormed_new {Doc : Type} (t : Target Doc) (byteLimit docLimit : Nat) (ordered : Bool) :
    (NewBufferedBulkInserter byteLimit docLimit ordered :
      BufferedBulkInserter Doc).WellFormed t := by
  simp [BufferedBulkInserter.WellFormed, NewBufferedBulkInserter]

theorem WellFormed_Flush {Doc : Type} (t : Target Doc) (bb : BufferedBulkInserter Doc)
    (h : bb.WellFormed t) : (bb.Flush t).1.WellFormed t := by
  unfold BufferedBulkInserter.Flush
  split
  · exact h
  · simp [BufferedBulkInserter.WellFormed]

theorem WellFormed_Insert {Doc : Type} (t : Target Doc) (bb : BufferedBulkInserter Doc)
    (doc : Doc) (h : bb.WellFormed t) : (bb.Insert t doc).1.WellFormed t := by
  have ha : (bb.append t doc).WellFormed t := by
    obtain ⟨h1, h2⟩ := h
    simp [BufferedBulkInserter.WellFormed, BufferedBulkInserter.append, h1, h2]
  unfold BufferedBulkInserter.Insert
  simp only
  split
  · exact WellFormed_Flush t _ ha
  · exact ha

theorem WellFormed_runBulk {Doc : Type} (t : Target Doc) (ops : List (BulkOp Doc)) :
    ∀ bb : BufferedBulkInserter Doc, bb.WellFormed t → (runBulk t bb ops).WellFormed t := by
  induction ops with
  | nil => intro bb h; exact h
  | cons op ops ih =>
    intro bb h
    simp only [runBulk, List.foldl_cons]
    apply ih
    cases op with
    | Insert doc => exact WellFormed_Insert t bb doc h
    | Flush => exact WellFormed_Flush t bb h

/-- A well-formed buffer is cleared by `Flush`. -/
theorem cleared_of_WellFormed {Doc : Type} (t : Target Doc) (bb : BufferedBulkInserter Doc)
    (h : bb.WellFormed t) :
    (bb.Flush t).1.pending = [] ∧ (bb.Flush t).1.docCount = 0 ∧ (bb.Flush t).1.byteCount = 0 := by
  obtain ⟨h1, h2⟩ := h
  unfold BufferedBulkInserter.Flush
  split
  · rename_i he
    have hp : bb.pending = [] := by simpa using he
    rw [hp] at h1 h2
    exact ⟨hp, by simpa using h1, by simpa using h2⟩
  · exact ⟨rfl, rfl, rfl⟩

/-- C7: for a document limit `L ≥ 1`, after the `N` documents of any list have
been inserted into a fresh inserter with no flush triggered by the byte limit
alone, `floor(N/L)` bulk writes have been executed, one per automatic flush,
and `docCount` is `N mod L`; this holds whatever the bulk writes return, so in
particular when every `Insert` succeeds. -/
theorem Insert_flush_count {Doc : Type} (t : Target Doc) (byteLimit L : Nat) (ordered : Bool)
    (docs : List Doc) (hL : 1 ≤ L)
    (hno : noByteLimitFlush t (NewBufferedBulkInserter byteLimit L ordered) docs = true) :
    (insertAll t (NewBufferedBulkInserter byteLimit L ordered) docs).target.length =
        docs.length / L ∧
      (insertAll t (NewBufferedBulkInserter byteLimit L ordered) docs).docCount =
        docs.length % L := by
  have h := insertAll_count t docs (NewBufferedBulkInserter byteLimit L ordered) hL hL hno
  simpa [NewBufferedBulkInserter] using h

/-- Witness of C7: ten empty documents with a document limit of three give
three flushes, one buffered document and a positive byte count. -/
theorem Insert_flush_count_witness :
    1 ≤ 3 ∧
      noByteLimitFlush bytesTarget (NewBufferedBulkInserter MaxBSONSize 3 false)
        (List.replicate 10 emptyDoc) = true ∧
      ((insertAll bytesTarget (NewBufferedBulkInserter MaxBSONSize 3 false)
          (List.replicate 10 emptyDoc)).target.length = 10 / 3 ∧
        (insertAll bytesTarget (NewBufferedBulkInserter MaxBSONSize 3 false)
          (List.replicate 10 emptyDoc)).docCount = 10 % 3) ∧
      0 < (insertAll bytesTarget (NewBufferedBulkInserter MaxBSONSize 3 false)
          (List.replicate 10 emptyDoc)).byteCount :=
  ⟨by decide, by decide,
   Insert_flush_count bytesTarget MaxBSONSize 3 false (List.replicate 10 emptyDoc)
     (by decide) (by decide),
   by decide⟩

/-- C8: in every state that an inserter reaches from its construction by calls
of `Insert` and `Flush`, whatever the bulk writes return, a `Flush` leaves
`pending` empty, `docCount == 0` and `byteCount == 0`. -/
theorem Flush_clears_buffer {Doc : Type} (t : Target Doc) (byteLimit docLimit : Nat) (ordered : Bool)
    (ops : List (BulkOp Doc)) :
    ((runBulk t (NewBufferedBulkInserter byteLimit docLimit ordered) ops).Flush t).1.pending =
        [] ∧
      ((runBulk t (NewBufferedBulkInserter byteLimit docLimit ordered) ops).Flush t).1.docCount =
        0 ∧
      ((runBulk t (NewBufferedBulkInserter byteLimit docLimit ordered) ops).Flush t).1.byteCount =
        0 :=
  cleared_of_WellFormed t _
    (WellFormed_runBulk t ops _ (WellFormed_new t byteLimit docLimit ordered))

/-- C9: when every bulk write succeeds, inserting a sequence of documents into
a fresh inserter and flushing returns nil from every call, leaves nothing
pending, and the batches sent, concatenated in the order they were sent, are the
inserted sequence. -/
theorem Insert_Flush_roundtrip {Doc : Type} (t : Target Doc) (byteLimit docLimit : Nat)
    (ordered : Bool) (docs : List Doc)
    (hOk : ∀ history batch ordered, t.BulkWrite history batch ordered = none) :
    (∀ e ∈ insertErrors t (NewBufferedBulkInserter byteLimit docLimit ordered) docs, e = none) ∧
      ((insertAll t (NewBufferedBulkInserter byteLimit docLimit ordered) docs).Flush t).2 = none ∧
      ((insertAll t (NewBufferedBulkInserter byteLimit docLimit ordered) docs).Flush t).1.pending =
        [] ∧
      ((insertAll t (NewBufferedBulkInserter byteLimit docLimit ordered)
        docs).Flush t).1.target.flatten = docs := by
  refine ⟨insertErrors_none t hOk docs _, Flush_error t hOk _, (Flush_join t _).2, ?_⟩
  rw [(Flush_join t _).1, insertAll_join]
  simp [NewBufferedBulkInserter]

/-- Witness of C9: the keys 0 .. 999999 through an inserter with a document
limit of 100. -/
theorem Insert_Flush_roundtrip_witness :
    (∀ history batch ordered, keyedTarget.BulkWrite history batch ordered = none) ∧
      ((insertAll keyedTarget (NewBufferedBulkInserter MaxBSONSize 100 false)
        (List.range 1000000)).Flush keyedTarget).1.target.flatten = List.range 1000000 :=
  ⟨fun _ _ _ => rfl,
   (Insert_Flush_roundtrip keyedTarget MaxBSONSize 100 false (List.range 1000000)
     (fun _ _ _ => rfl)).2.2.2⟩

end Db
